import Mathlib

/-!
Verification development for the libyaml wrapper core of `serde-yaml`
(files `src/libyaml/error.rs`, `src/libyaml/parser.rs`,
`src/libyaml/emitter.rs`).

Byte sequences (Rust `[u8]`, C strings, `Box<[u8]>`) are embedded as
`List Nat`; human-readable texts that only flow into `Display`/`Debug`
formatting are embedded as `String`.  The external grammar engine
(`unsafe_libyaml`) is not part of the repository; the few engine
primitives the wrapper drives are modelled from the spec, and every such
definition carries a doc comment starting `Modelled from the spec:`.
-/

namespace SerdeYaml

/-- `Mark` wrapping `yaml_mark_t` (error.rs lines 115-132): byte `index`,
0-based `line` and `column`.  `Default for Mark` zeroes all fields. -/
structure Mark where
  index : Nat
  line : Nat
  column : Nat
deriving DecidableEq

/-- The all-zero `Mark` produced by `Default::default()` (error.rs 134-140). -/
def Mark.zero : Mark := ⟨0, 0, 0⟩

/-- `impl Display for Mark` (error.rs 142-155): 1-based line/column when
`line != 0 || column != 0`, else the byte-offset form. -/
def markDisplay (m : Mark) : String :=
  if m.line != 0 || m.column != 0 then
    "line " ++ toString (m.line + 1) ++ " column " ++ toString (m.column + 1)
  else
    "position " ++ toString m.index

/-- `impl Debug for Mark` (error.rs 157-168): a `debug_struct` with
1-based `line`/`column` fields when `line != 0 || column != 0`, else just
the `index` field. -/
def markDebug (m : Mark) : String :=
  if m.line != 0 || m.column != 0 then
    "Mark \x7b line: " ++ toString (m.line + 1) ++ ", column: " ++
      toString (m.column + 1) ++ " \x7d"
  else
    "Mark \x7b index: " ++ toString m.index ++ " \x7d"

/-- `Error` (error.rs 4-11): snapshot of an engine handle's error fields.
`problem`/`context` are the engine's static C strings, embedded as the
`String` their `to_string_lossy` renders to. -/
structure Error where
  kind : Nat
  problem : Option String
  problem_offset : Nat
  problem_mark : Mark
  context : Option String
  context_mark : Mark
deriving DecidableEq

/-- `impl Display for Error` (error.rs 59-82), translated clause by
clause: problem text (or the fixed fallback text), then the problem
position (`Mark` display if its line/column are not both zero, else
`position {problem_offset}` and only when that offset is nonzero), then
the context text whenever `context` is present, then the context mark
when it is not both-zero and differs from the problem mark. -/
def errorDisplay (e : Error) : String :=
  let s :=
    match e.problem with
    | some problem => problem
    | none => "libyaml parser failed but there is no error"
  let s :=
    if e.problem_mark.line != 0 || e.problem_mark.column != 0 then
      s ++ (" at " ++ markDisplay e.problem_mark)
    else if e.problem_offset != 0 then
      s ++ (" at position " ++ toString e.problem_offset)
    else
      s
  match e.context with
  | some context =>
    let s := s ++ (", " ++ context)
    if (e.context_mark.line != 0 || e.context_mark.column != 0)
        && (e.context_mark.line != e.problem_mark.line
            || e.context_mark.column != e.problem_mark.column) then
      s ++ (" at " ++ markDisplay e.context_mark)
    else
      s
  | none => s

/-- `Cow<'input, [u8]>`: the parser's input buffer, either borrowed from
the caller or owned by the parser (parser.rs 99-116). -/
inductive Cow where
  | borrowed (bytes : List Nat)
  | owned (bytes : List Nat)
deriving DecidableEq

/-- `yaml_scalar_style_t` as the wrapper reads it (parser.rs 179-186):
the five defined styles plus `YAML_ANY_SCALAR_STYLE`. -/
inductive SysStyle where
  | any
  | plain
  | singleQuoted
  | doubleQuoted
  | literal
  | folded
deriving DecidableEq

/-- The fields of the engine's `yaml_event_t` union that the wrapper
reads (parser.rs `convert_event`) or writes (emitter.rs `emit`).
Anchor/tag fields are the byte contents of the engine's C strings
(`None` embeds a null pointer); a scalar's value carries its explicit
length, so it is an arbitrary byte list. -/
inductive SysEventData where
  | streamStart
  | streamEnd
  | documentStart (implicit : Bool)
  | documentEnd (implicit : Bool)
  | alias (anchor : Option (List Nat))
  | scalar (anchor : Option (List Nat)) (tag : Option (List Nat))
      (value : Option (List Nat)) (plainImplicit : Bool)
      (quotedImplicit : Bool) (style : SysStyle)
  | sequenceStart (anchor : Option (List Nat)) (tag : Option (List Nat))
      (implicit : Bool)
  | sequenceEnd
  | mappingStart (anchor : Option (List Nat)) (tag : Option (List Nat))
      (implicit : Bool)
  | mappingEnd
deriving DecidableEq

/-- A `yaml_event_t` with its `start_mark`/`end_mark` fields. -/
structure SysEvent where
  data : SysEventData
  startMark : Mark
  endMark : Mark
deriving DecidableEq

/-- `ScalarStyle` (parser.rs 65-72): the five defined scalar styles the
decoder can yield. -/
inductive ScalarStyle where
  | plain
  | singleQuoted
  | doubleQuoted
  | literal
  | folded
deriving DecidableEq

/-- `Scalar` (parser.rs 41-48).  `anchor`/`tag`/`value` are owned byte
buffers; `repr` is the optional zero-copy slice of the input. -/
structure Scalar where
  anchor : Option (List Nat)
  tag : Option (List Nat)
  value : List Nat
  style : ScalarStyle
  repr : Option (List Nat)
deriving DecidableEq

/-- `SequenceStart` (parser.rs 50-54). -/
structure SequenceStart where
  anchor : Option (List Nat)
  tag : Option (List Nat)
deriving DecidableEq

/-- `MappingStart` (parser.rs 56-60). -/
structure MappingStart where
  anchor : Option (List Nat)
  tag : Option (List Nat)
deriving DecidableEq

/-- `Event<'input>` on the decode side (parser.rs 27-39). -/
inductive Event where
  | streamStart
  | streamEnd
  | documentStart
  | documentEnd
  | alias (anchor : List Nat)
  | scalar (s : Scalar)
  | sequenceStart (s : SequenceStart)
  | sequenceEnd
  | mappingStart (m : MappingStart)
  | mappingEnd
deriving DecidableEq

/-- The style arm of `convert_event` (parser.rs 179-186): the five
defined styles map across; `YAML_ANY_SCALAR_STYLE | _` is
`unreachable!()`, embedded as `none`. -/
def sysStyleToStyle : SysStyle → Option ScalarStyle
  | .any => none
  | .plain => some .plain
  | .singleQuoted => some .singleQuoted
  | .doubleQuoted => some .doubleQuoted
  | .literal => some .literal
  | .folded => some .folded

/-- The `repr` arm of `convert_event` (parser.rs 187-191):
`Some(&input[start_mark.index..end_mark.index])` when the input is
`Cow::Borrowed`, `None` when it is owned. -/
def reprSlice (input : Cow) (startMark endMark : Mark) : Option (List Nat) :=
  match input with
  | .borrowed b => some ((b.drop startMark.index).take (endMark.index - startMark.index))
  | .owned _ => none

/-- `convert_event` (parser.rs 139-205).  The wrapper's panics are
embedded as `none`: `parse_anchor(..).unwrap()` on a null alias anchor,
`parse_value(..).unwrap()` on a null scalar value, and the
`unreachable!()` style arm.  `parse_anchor`/`parse_tag` read the
engine's C strings, which the model carries already as byte lists. -/
def convert_event (s : SysEvent) (input : Cow) : Option Event :=
  match s.data with
  | .streamStart => some .streamStart
  | .streamEnd => some .streamEnd
  | .documentStart _ => some .documentStart
  | .documentEnd _ => some .documentEnd
  | .alias anchor => anchor.map Event.alias
  | .scalar anchor tag value _ _ style =>
    match value, sysStyleToStyle style with
    | some v, some st =>
      some (.scalar ⟨anchor, tag, v, st, reprSlice input s.startMark s.endMark⟩)
    | _, _ => none
  | .sequenceStart anchor tag _ => some (.sequenceStart ⟨anchor, tag⟩)
  | .sequenceEnd => some .sequenceEnd
  | .mappingStart anchor tag _ => some (.mappingStart ⟨anchor, tag⟩)
  | .mappingEnd => some .mappingEnd

deriving instance DecidableEq for Except

/-- The engine's `yaml_parser_t` handle as the wrapper reads it: the
`error` kind (`0` embeds `YAML_NO_ERROR`) and the error-snapshot fields
read by `Error::get_parser_error`, plus `pending`, the modelled
remainder of the engine's parse (each entry is the outcome of one
`yaml_parser_parse` call). -/
structure ParserHandle where
  error : Nat
  problem : Option String
  problem_offset : Nat
  problem_mark : Mark
  context : Option String
  context_mark : Mark
  pending : List (Except Error SysEvent)
deriving DecidableEq

/-- `Error::get_parser_error` (error.rs 14-36): snapshot the handle's
current error fields. -/
def getParserError (h : ParserHandle) : Error :=
  { kind := h.error
    problem := h.problem
    problem_offset := h.problem_offset
    problem_mark := h.problem_mark
    context := h.context
    context_mark := h.context_mark }

/-- Modelled from the spec: the external grammar engine's pull primitive
`yaml_parser_parse` (spec §6, "parse next token from bound buffer ->
native event | error-state"; "sticky error state persists until the
handle is destroyed").  On success it consumes one pending outcome and
returns the native event; on failure it records a nonzero error kind and
the problem/context fields into the handle (the stored `e.kind` is
forced nonzero with `max 1`, since `YAML_NO_ERROR = 0` never denotes a
failure) and stays failed.  An exhausted outcome list is modelled as a
failure too. -/
def yamlParserParse (h : ParserHandle) : ParserHandle × Option SysEvent :=
  match h.pending with
  | .ok e :: rest => ({ h with pending := rest }, some e)
  | .error e :: rest =>
    ({ h with
        error := max 1 e.kind
        problem := e.problem
        problem_offset := e.problem_offset
        problem_mark := e.problem_mark
        context := e.context
        context_mark := e.context_mark
        pending := rest }, none)
  | [] => ({ h with error := 1, pending := [] }, none)

namespace Parser

/-- `Parser::next` (parser.rs 118-137).  The second component is `none`
exactly when `convert_event` panics; otherwise it is the returned
`Result<(Event, Mark), Error>`.  The first component is the parser state
after the call. -/
def next (input : Cow) (h : ParserHandle) :
    ParserHandle × Option (Except Error (Event × Mark)) :=
  if h.error != 0 then
    (h, some (.error (getParserError h)))
  else
    match yamlParserParse h with
    | (h2, none) => (h2, some (.error (getParserError h2)))
    | (h2, some sysEvent) =>
      match convert_event sysEvent input with
      | none => (h2, none)
      | some event => (h2, some (.ok (event, sysEvent.startMark)))

end Parser

/-- The emitter's `ScalarStyle` (emitter.rs 53-59): note it has no
DoubleQuoted or Folded variant. -/
inductive EScalarStyle where
  | any
  | plain
  | singleQuoted
  | literal
deriving DecidableEq

/-- The emitter's `Scalar<'a>` (emitter.rs 46-51): `tag: Option<String>`
and `value: &'a str` are embedded as their UTF-8 byte lists. -/
structure EScalar where
  tag : Option (List Nat)
  value : List Nat
  style : EScalarStyle
deriving DecidableEq

/-- The emitter's `Sequence` (emitter.rs 61-64). -/
structure ESequence where
  tag : Option (List Nat)
deriving DecidableEq

/-- The emitter's `Mapping` (emitter.rs 66-69). -/
structure EMapping where
  tag : Option (List Nat)
deriving DecidableEq

/-- `Event<'a>` on the encode side (emitter.rs 33-44): no Alias variant,
no anchor fields. -/
inductive EEvent where
  | streamStart
  | streamEnd
  | documentStart
  | documentEnd
  | scalar (s : EScalar)
  | sequenceStart (s : ESequence)
  | sequenceEnd
  | mappingStart (m : EMapping)
  | mappingEnd
deriving DecidableEq

/-- The byte content the engine reads from a C string pointer: the bytes
up to (excluding) the first NUL.  Used for the tag handed to the engine
after `tag.push('\0'); tag.as_ptr()` (emitter.rs 126-129 etc.). -/
def cString (l : List Nat) : List Nat := l.takeWhile (· != 0)

/-- The event-translation arm of `Emitter::emit` (emitter.rs 102-185):
the native `yaml_event_t` the `yaml_*_event_initialize` call builds from
a safe event.  Anchors are always null; document events pass
`implicit = true`; for scalars `plain_implicit = quoted_implicit =
tag.is_null()` and for collections `implicit = tag.is_null()`; tags are
NUL-terminated and handed over as C strings. -/
def emitterEventToSys : EEvent → SysEventData
  | .streamStart => .streamStart
  | .streamEnd => .streamEnd
  | .documentStart => .documentStart true
  | .documentEnd => .documentEnd true
  | .scalar s =>
    .scalar none (s.tag.map fun t => cString (t ++ [0])) (some s.value)
      s.tag.isNone s.tag.isNone
      (match s.style with
       | .any => .any
       | .plain => .plain
       | .singleQuoted => .singleQuoted
       | .literal => .literal)
  | .sequenceStart s =>
    .sequenceStart none (s.tag.map fun t => cString (t ++ [0])) s.tag.isNone
  | .sequenceEnd => .sequenceEnd
  | .mappingStart m =>
    .mappingStart none (m.tag.map fun t => cString (t ++ [0])) m.tag.isNone
  | .mappingEnd => .mappingEnd

/-- The engine's `yaml_emitter_t` handle as the wrapper reads it: the
`error` kind and the `problem` C string read by
`Error::get_emitter_error`. -/
structure EmitterHandle where
  error : Nat
  problem : Option String
deriving DecidableEq

/-- `Error::get_emitter_error` (error.rs 38-52): only the kind and
problem text are snapshotted; offset, both marks and the context are
filled with defaults. -/
def getEmitterError (h : EmitterHandle) : Error :=
  { kind := h.error
    problem := h.problem
    problem_offset := 0
    problem_mark := Mark.zero
    context := none
    context_mark := Mark.zero }

/-- `EmitterError` (emitter.rs 27-31).  The payload of `Io` is the
`std::io::Error`, embedded as an opaque `Nat` identity. -/
inductive EmitterError where
  | libyaml (e : Error)
  | io (e : Nat)
deriving DecidableEq

/-- One modelled outcome of driving the engine's push primitive
(`yaml_emitter_emit` / `yaml_emitter_flush`): the step succeeds, fails
inside the engine with the given error fields, or invokes the write
handler with the sink failing (`io` is the sink's error, and the engine
then fails with the given error fields). -/
inductive EmitOutcome where
  | ok
  | failEngine (kind : Nat) (problem : Option String)
  | writeFail (io : Nat) (kind : Nat) (problem : Option String)
deriving DecidableEq

/-- `EmitterPinned<W>` (emitter.rs 71-75): the pinned engine handle, the
optional writer (`writer.isSome` embeds whether `into_inner` has not yet
taken it), and `error`, the stashed sink I/O failure — named `ioError`
here to keep it apart from the handle's engine error.  `pending` is the
modelled remainder of the engine's behaviour. -/
structure EmitterPinned where
  handle : EmitterHandle
  writer : Bool
  ioError : Option Nat
  pending : List EmitOutcome
deriving DecidableEq

/-- `handler` (emitter.rs 220-237): the write callback.  `writeResult`
is `some err` when the writer's `write_all` fails with `err`, `none`
when it succeeds.  A failure is stashed in `pinned.error` and reported
to the engine as `0`; success — or an already-taken writer — returns
`1`. -/
def handler (p : EmitterPinned) (writeResult : Option Nat) :
    EmitterPinned × Nat :=
  if p.writer then
    match writeResult with
    | some err => ({ p with ioError := some err }, 0)
    | none => (p, 1)
  else
    (p, 1)

/-- Modelled from the spec: the external grammar engine's push primitive
(`yaml_emitter_emit` and `yaml_emitter_flush`; spec §6, "accept one
native event, possibly invoking a registered write callback with
produced bytes -> success | error-state").  It consumes one pending
outcome; on an engine failure it records a nonzero error kind and
problem into the handle (`max 1` as for the parser); on a write-handler
failure it first runs the wrapper's registered `handler` and fails only
if the handler reported failure.  The returned `Bool` is the
`.fail` of the engine's status. -/
def yamlEmitterStep (p : EmitterPinned) : EmitterPinned × Bool :=
  match p.pending with
  | .ok :: rest => ({ p with pending := rest }, false)
  | .failEngine kind problem :: rest =>
    ({ p with handle := ⟨max 1 kind, problem⟩, pending := rest }, true)
  | .writeFail io kind problem :: rest =>
    match handler { p with pending := rest } (some io) with
    | (p2, 0) => ({ p2 with handle := ⟨max 1 kind, problem⟩ }, true)
    | (p2, _) => (p2, false)
  | [] => (p, false)

namespace Emitter

/-- `Emitter::emit` (emitter.rs 97-198) for an event whose
`yaml_*_event_initialize` call succeeds: build the native event, drive
the engine, and on failure return the taken stashed sink error as `Io`
if there is one, else the snapshotted engine error as `Libyaml`. -/
def emit (p : EmitterPinned) (event : EEvent) :
    EmitterPinned × Except EmitterError Unit :=
  let _sysEvent := emitterEventToSys event
  match yamlEmitterStep p with
  | (p2, false) => (p2, .ok ())
  | (p2, true) =>
    match p2.ioError with
    | some e => ({ p2 with ioError := none }, .error (.io e))
    | none => (p2, .error (.libyaml (getEmitterError p2.handle)))

/-- `Emitter::flush` (emitter.rs 200-213): drive `yaml_emitter_flush`
with the same I/O-vs-engine error precedence as `emit`. -/
def flush (p : EmitterPinned) : EmitterPinned × Except EmitterError Unit :=
  match yamlEmitterStep p with
  | (p2, false) => (p2, .ok ())
  | (p2, true) =>
    match p2.ioError with
    | some e => ({ p2 with ioError := none }, .error (.io e))
    | none => (p2, .error (.libyaml (getEmitterError p2.handle)))

end Emitter

/-- Translation of a decoded scalar style into the encoder's style
vocabulary, used to state the round-trip claim.  The encoder's
`ScalarStyle` (emitter.rs 53-59) has no DoubleQuoted or Folded variant,
so the translation is partial. -/
def toEmitterStyle : ScalarStyle → Option EScalarStyle
  | .plain => some .plain
  | .singleQuoted => some .singleQuoted
  | .doubleQuoted => none
  | .literal => some .literal
  | .folded => none

/-- Translation of a decoded event into the encoder's event vocabulary,
used to state the round-trip claim ("re-encoding that sequence with
`Emitter::emit`").  The encoder's vocabulary (emitter.rs 33-69) has no
Alias variant and no anchor fields, so aliases are untranslatable and
anchors are necessarily dropped. -/
def toEmitterEvent : Event → Option EEvent
  | .streamStart => some .streamStart
  | .streamEnd => some .streamEnd
  | .documentStart => some .documentStart
  | .documentEnd => some .documentEnd
  | .alias _ => none
  | .scalar sc => (toEmitterStyle sc.style).map fun st => .scalar ⟨sc.tag, sc.value, st⟩
  | .sequenceStart q => some (.sequenceStart ⟨q.tag⟩)
  | .sequenceEnd => some .sequenceEnd
  | .mappingStart m => some (.mappingStart ⟨m.tag⟩)
  | .mappingEnd => some .mappingEnd

def translateSeq : List Event → Option (List EEvent)
  | [] => some []
  | p :: ps =>
    match toEmitterEvent p, translateSeq ps with
    | some e, some es => some (e :: es)
    | _, _ => none

/-- Modelled from the spec: the external grammar engine's byte layer for
the round trip (spec §8 "Round trip" together with §6's engine
guarantees).  Serialising a native event sequence and parsing the
resulting bytes yields natively-equal events; the marks on the parsed
events are regenerated by the engine, so the model leaves them zero. -/
def modelEmitParse (es : List SysEventData) : List SysEvent :=
  es.map fun d => ⟨d, Mark.zero, Mark.zero⟩

/-- Decoding an engine event sequence through `convert_event`, i.e. the
event part of repeated successful `Parser::next` calls. -/
def decodeSeq (input : Cow) : List SysEvent → Option (List Event)
  | [] => some []
  | s :: ss =>
    match convert_event s input, decodeSeq input ss with
    | some e, some es => some (e :: es)
    | _, _ => none

/-- Equality "ignoring the zero-copy `repr` field": erase `repr`. -/
def Event.eraseRepr : Event → Event
  | .scalar sc => .scalar { sc with repr := none }
  | e => e

/-- C-string well-formedness of a native event handed over by the
engine: anchor and tag byte contents read out of C strings contain no
NUL byte. -/
def SysEventData.cstringsWF : SysEventData → Bool
  | .alias a => (a.getD []).all (· != 0)
  | .scalar a t _ _ _ _ => (a.getD []).all (· != 0) && (t.getD []).all (· != 0)
  | .sequenceStart a t _ => (a.getD []).all (· != 0) && (t.getD []).all (· != 0)
  | .mappingStart a t _ => (a.getD []).all (· != 0) && (t.getD []).all (· != 0)
  | _ => true

/-- A decoded event carrying no anchor and not being an alias. -/
def Event.anchorFree : Event → Bool
  | .alias _ => false
  | .scalar sc => sc.anchor.isNone
  | .sequenceStart q => q.anchor.isNone
  | .mappingStart m => m.anchor.isNone
  | _ => true

/-- The round-trip property as the claim states it: any decodable event
sequence, re-encoded through the encoder vocabulary and the engine and
decoded again (over an owned input, so the re-decode carries no `repr`),
comes back equal up to `repr` erasure. -/
def roundTripClaim : Prop :=
  ∀ (input : Cow) (ss : List SysEvent) (ps : List Event) (es : List EEvent),
    decodeSeq input ss = some ps →
    translateSeq ps = some es →
    decodeSeq (.owned []) (modelEmitParse (es.map emitterEventToSys))
      = some (ps.map Event.eraseRepr)

/-- The `repr` field of a decoded event, for every event kind that
carries one (only `Scalar` does). -/
def Event.reprField : Event → Option (List Nat)
  | .scalar sc => sc.repr
  | _ => none

/-- The implicit flag(s) a native event hands to the engine: for scalars
the pair `plain_implicit, quoted_implicit`, for collection starts the
single `implicit` flag; empty for event kinds whose flags the claim does
not speak about. -/
def SysEventData.implicitFlags : SysEventData → List Bool
  | .scalar _ _ _ plainImplicit quotedImplicit _ => [plainImplicit, quotedImplicit]
  | .sequenceStart _ _ implicit => [implicit]
  | .mappingStart _ _ implicit => [implicit]
  | _ => []

/-- The `Display for Error` output as the claim's sentence reads: the
context text and the context mark are both appended only when the
context position differs from the problem position. -/
def errorDisplayClaimed (e : Error) : String :=
  (match e.problem with
   | some problem => problem
   | none => "libyaml parser failed but there is no error") ++
  (if e.problem_mark.line != 0 || e.problem_mark.column != 0 then
     " at " ++ markDisplay e.problem_mark
   else if e.problem_offset != 0 then
     " at position " ++ toString e.problem_offset
   else "") ++
  (match e.context with
   | some context =>
     if e.context_mark.line != e.problem_mark.line
         || e.context_mark.column != e.problem_mark.column then
       ", " ++ context ++ (" at " ++ markDisplay e.context_mark)
     else ""
   | none => "")

/-- The `Display for Error` output as the amended claim reads: the
context text is appended whenever a context is present, and only the
context mark is conditional — shown when it is not both-zero and
differs from the problem position. -/
def errorDisplayAmended (e : Error) : String :=
  (match e.problem with
   | some problem => problem
   | none => "libyaml parser failed but there is no error") ++
  (if e.problem_mark.line != 0 || e.problem_mark.column != 0 then
     " at " ++ markDisplay e.problem_mark
   else if e.problem_offset != 0 then
     " at position " ++ toString e.problem_offset
   else "") ++
  (match e.context with
   | some context =>
     ", " ++ context ++
       (if (e.context_mark.line != 0 || e.context_mark.column != 0)
           && (e.context_mark.line != e.problem_mark.line
               || e.context_mark.column != e.problem_mark.column) then
          " at " ++ markDisplay e.context_mark
        else "")
   | none => "")

/-! ## Theorems -/

/-- C7: for every `Mark`, the Display and Debug forms show 1-based line
and column (`line+1`, `column+1`) when line and column are not both
zero, and otherwise fall back to the byte-offset form. -/
theorem mark_display_one_based (m : Mark) :
    (¬(m.line = 0 ∧ m.column = 0) →
      markDisplay m
          = "line " ++ toString (m.line + 1) ++ " column " ++ toString (m.column + 1)
        ∧ markDebug m
          = "Mark \x7b line: " ++ toString (m.line + 1) ++ ", column: "
              ++ toString (m.column + 1) ++ " \x7d")
    ∧ (m.line = 0 ∧ m.column = 0 →
      markDisplay m = "position " ++ toString m.index
        ∧ markDebug m = "Mark \x7b index: " ++ toString m.index ++ " \x7d") := by
  constructor
  · intro h
    have hc : (m.line != 0 || m.column != 0) = true := by
      simp [bne_iff_ne]
      omega
    simp [markDisplay, markDebug, hc]
  · rintro ⟨h1, h2⟩
    simp [markDisplay, markDebug, h1, h2]

/-- Witness for C7 at the marks `⟨5, 1, 2⟩` and `⟨7, 0, 0⟩`. -/
theorem mark_display_one_based_witness :
    markDisplay ⟨5, 1, 2⟩ = "line 2 column 3"
      ∧ markDisplay ⟨7, 0, 0⟩ = "position 7" :=
  ⟨(((mark_display_one_based ⟨5, 1, 2⟩).1 (by decide)).1).trans (by decide),
   (((mark_display_one_based ⟨7, 0, 0⟩).2 (by decide)).1).trans (by decide)⟩

/-- C8 (counterexample): the claim predicts that the context text is
appended only when the context position differs from the problem
position, but `Display for Error` appends the context text whenever a
context is present — here both positions are line 1, column 1 and the
output still ends in `", c"`. -/
theorem error_context_display_counterexample :
    errorDisplay ⟨2, some "p", 3, ⟨0, 1, 1⟩, some "c", ⟨0, 1, 1⟩⟩
      ≠ errorDisplayClaimed ⟨2, some "p", 3, ⟨0, 1, 1⟩, some "c", ⟨0, 1, 1⟩⟩ := by
  decide

/-- C8 (amended): `Display for Error` prefers the 1-based line/column
form for the problem position, falls back to the byte offset when the
mark is both-zero (and shows no position at all when that offset is 0),
appends the context text whenever a context is present, and appends the
context mark only when that mark is not both-zero and differs from the
problem position. -/
theorem error_display_formula (e : Error) :
    errorDisplay e = errorDisplayAmended e := by
  obtain ⟨kind, problem, off, pm, ctx, cm⟩ := e
  cases problem <;> cases ctx <;>
    simp only [errorDisplay, errorDisplayAmended, String.append_assoc] <;>
    split_ifs <;>
    simp [String.append_assoc]

/-- C9: an `Error` snapshotted by `Error::get_emitter_error` carries
only the kind and problem text — zero `problem_offset`, all-zero marks,
no context — and so displays as the bare problem text (or the fallback
text), with no position and no context. -/
theorem emitter_error_snapshot_minimal (h : EmitterHandle) :
    (getEmitterError h).problem_offset = 0
    ∧ (getEmitterError h).problem_mark = Mark.zero
    ∧ (getEmitterError h).context_mark = Mark.zero
    ∧ (getEmitterError h).context = none
    ∧ errorDisplay (getEmitterError h)
        = (match h.problem with
           | some problem => problem
           | none => "libyaml parser failed but there is no error") := by
  refine ⟨rfl, rfl, rfl, rfl, ?_⟩
  cases hp : h.problem <;> simp [errorDisplay, getEmitterError, Mark.zero, hp]

/-- C4: the implicit flag(s) `Emitter::emit` hands to the engine for a
Scalar, SequenceStart or MappingStart event are true exactly when the
event's `tag` is `None`, and false for any explicit tag. -/
theorem implicit_iff_no_tag (s : EScalar) (q : ESequence) (m : EMapping) :
    (emitterEventToSys (.scalar s)).implicitFlags
        = (if s.tag = none then [true, true] else [false, false])
    ∧ (emitterEventToSys (.sequenceStart q)).implicitFlags
        = (if q.tag = none then [true] else [false])
    ∧ (emitterEventToSys (.mappingStart m)).implicitFlags
        = (if m.tag = none then [true] else [false]) := by
  refine ⟨?_, ?_, ?_⟩
  · cases htag : s.tag <;> simp [emitterEventToSys, SysEventData.implicitFlags, htag]
  · cases htag : q.tag <;> simp [emitterEventToSys, SysEventData.implicitFlags, htag]
  · cases htag : m.tag <;> simp [emitterEventToSys, SysEventData.implicitFlags, htag]

/-- C5: a decoded event's `repr` is the input slice between the event's
start and end mark offsets when the input is `Cow::Borrowed`, and `None`
for every event kind when the input is owned. -/
theorem repr_zero_copy (d : SysEventData) (m1 m2 : Mark) (b o : List Nat) :
    (∀ sc : Scalar, convert_event ⟨d, m1, m2⟩ (.borrowed b) = some (.scalar sc) →
        sc.repr = some ((b.drop m1.index).take (m2.index - m1.index)))
    ∧ (∀ ev : Event, convert_event ⟨d, m1, m2⟩ (.owned o) = some ev →
        ev.reprField = none) := by
  constructor
  · intro sc hconv
    rcases d with _ | _ | imp | imp | a | ⟨a, t, v, pi, qi, st⟩ | ⟨a, t, imp⟩ | _ | ⟨a, t, imp⟩ | _ <;>
      simp [convert_event] at hconv
    rcases v with _ | vv
    · simp at hconv
    · rcases hst : sysStyleToStyle st with _ | stt <;> rw [hst] at hconv
      · simp at hconv
      · simp [reprSlice] at hconv
        subst hconv
        rfl
  · intro ev hconv
    rcases d with _ | _ | imp | imp | a | ⟨a, t, v, pi, qi, st⟩ | ⟨a, t, imp⟩ | _ | ⟨a, t, imp⟩ | _ <;>
      simp [convert_event] at hconv
    all_goals first
      | (subst hconv; simp [Event.reprField])
      | skip
    · rcases hconv with ⟨x, hx, hev⟩
      subst hev
      simp [Event.reprField]
    · rcases v with _ | vv
      · simp at hconv
      · rcases hst : sysStyleToStyle st with _ | stt <;> rw [hst] at hconv
        · simp at hconv
        · simp [reprSlice] at hconv
          subst hconv
          simp [Event.reprField]

/-- Witness for C5: a plain scalar spanning offsets 1..3 of the borrowed
input `[0, 1, 2, 3, 4]` gets `repr = some [1, 2]`. -/
theorem repr_zero_copy_witness :
    (⟨none, none, [104], ScalarStyle.plain, some [1, 2]⟩ : Scalar).repr
      = some [1, 2] :=
  (repr_zero_copy (.scalar none none (some [104]) true true .plain)
      ⟨1, 0, 0⟩ ⟨3, 0, 0⟩ [0, 1, 2, 3, 4] []).1
    ⟨none, none, [104], .plain, some [1, 2]⟩ (by decide)

/-- C6: under the engine contract (alias anchors non-null, scalar values
non-null, scalar styles among the five defined ones) `convert_event`
never reaches a panic/`unreachable!` branch; conversely a null alias
anchor, a null scalar value or an out-of-enumeration style is fatal
(embedded `none`), never a normal error return. -/
theorem convert_event_engine_contract (s : SysEvent) (input : Cow) :
    ((∀ a, s.data = .alias a → a ≠ none) →
      (∀ a t v pi qi st, s.data = .scalar a t v pi qi st → v ≠ none ∧ st ≠ .any) →
      (convert_event s input).isSome = true)
    ∧ (s.data = .alias none → convert_event s input = none)
    ∧ (∀ a t pi qi st, s.data = .scalar a t none pi qi st →
        convert_event s input = none)
    ∧ (∀ a t v pi qi, s.data = .scalar a t v pi qi .any →
        convert_event s input = none) := by
  obtain ⟨d, m1, m2⟩ := s
  refine ⟨?_, ?_, ?_, ?_⟩
  · intro halias hscalar
    rcases d with _ | _ | imp | imp | a | ⟨a, t, v, pi, qi, st⟩ | ⟨a, t, imp⟩ | _ | ⟨a, t, imp⟩ | _ <;>
      simp [convert_event]
    · rcases a with _ | av
      · exact absurd rfl (halias none rfl)
      · simp
    · obtain ⟨hv, hst⟩ := hscalar a t v pi qi st rfl
      rcases v with _ | vv
      · exact absurd rfl hv
      · rcases st <;> simp [sysStyleToStyle] at hst ⊢
  · intro hd
    subst hd
    simp [convert_event]
  · intro a t pi qi st hd
    subst hd
    simp [convert_event]
  · intro a t v pi qi hd
    subst hd
    rcases v with _ | vv <;> simp [convert_event, sysStyleToStyle]

/-- Witness for C6: a present alias anchor converts to a normal event,
and a null alias anchor is the fatal branch. -/
theorem convert_event_engine_contract_witness :
    (convert_event ⟨.alias (some [97]), Mark.zero, Mark.zero⟩ (.owned [])).isSome = true
      ∧ convert_event ⟨.alias none, Mark.zero, Mark.zero⟩ (.owned []) = none :=
  ⟨(convert_event_engine_contract ⟨.alias (some [97]), Mark.zero, Mark.zero⟩ (.owned [])).1
      (by intro a ha; cases ha; simp) (by intro a t v pi qi st ha; cases ha),
   (convert_event_engine_contract ⟨.alias none, Mark.zero, Mark.zero⟩ (.owned [])).2.1 rfl⟩

/-- C2: once `Parser::next` has returned an error, the handle is in a
nonzero sticky error state, the returned error is the snapshot of that
state, and every further call returns the same snapshot without driving
the engine (the state is returned unchanged). -/
theorem sticky_parser_error (input : Cow) (h h2 : ParserHandle) (e : Error)
    (hcall : Parser.next input h = (h2, some (.error e))) :
    h2.error ≠ 0
    ∧ e = getParserError h2
    ∧ Parser.next input h2 = (h2, some (.error (getParserError h2))) := by
  have main : h2.error ≠ 0 ∧ e = getParserError h2 := by
    by_cases herr : h.error = 0
    · rcases hpend : h.pending with _ | ⟨o, rest⟩
      · simp [Parser.next, yamlParserParse, herr, hpend] at hcall
        obtain ⟨hh2, he⟩ := hcall
        subst hh2
        exact ⟨one_ne_zero, he.symm⟩
      · cases o with
        | ok se =>
          rcases hce : convert_event se input with _ | ev <;>
            simp [Parser.next, yamlParserParse, herr, hpend, hce] at hcall
        | error pe =>
          simp [Parser.next, yamlParserParse, herr, hpend] at hcall
          obtain ⟨hh2, he⟩ := hcall
          subst hh2
          refine ⟨?_, he.symm⟩
          simp
    · have hc : (h.error != 0) = true := by simp [bne_iff_ne]; exact herr
      simp [Parser.next, hc] at hcall
      obtain ⟨hh2, he⟩ := hcall
      subst hh2
      exact ⟨herr, he.symm⟩
  refine ⟨main.1, main.2, ?_⟩
  have hc : (h2.error != 0) = true := by simp [bne_iff_ne]; exact main.1
  simp [Parser.next, hc]

/-- Witness for C2: a parser whose engine fails on the first pull; the
second call returns the same snapshotted error with the state
unchanged. -/
theorem sticky_parser_error_witness :
    (⟨2, some "bad", 5, ⟨5, 1, 2⟩, none, Mark.zero, []⟩ : ParserHandle).error ≠ 0
      ∧ (⟨2, some "bad", 5, ⟨5, 1, 2⟩, none, Mark.zero⟩ : Error)
          = getParserError ⟨2, some "bad", 5, ⟨5, 1, 2⟩, none, Mark.zero, []⟩
      ∧ Parser.next (.owned []) ⟨2, some "bad", 5, ⟨5, 1, 2⟩, none, Mark.zero, []⟩
          = (⟨2, some "bad", 5, ⟨5, 1, 2⟩, none, Mark.zero, []⟩,
             some (.error (getParserError
               ⟨2, some "bad", 5, ⟨5, 1, 2⟩, none, Mark.zero, []⟩))) :=
  sticky_parser_error (.owned [])
    ⟨0, none, 0, Mark.zero, none, Mark.zero,
      [.error ⟨2, some "bad", 5, ⟨5, 1, 2⟩, none, Mark.zero⟩]⟩
    ⟨2, some "bad", 5, ⟨5, 1, 2⟩, none, Mark.zero, []⟩
    ⟨2, some "bad", 5, ⟨5, 1, 2⟩, none, Mark.zero⟩ (by decide)

/-- Shared helper: a failing engine step with no stashed sink error
yields the snapshotted `Libyaml` error, from `emit` and from `flush`. -/
theorem emit_fail_engine_no_io (p : EmitterPinned) (ev : EEvent)
    (k : Nat) (prob : Option String) (rest : List EmitOutcome)
    (hp : p.pending = .failEngine k prob :: rest) (hio : p.ioError = none) :
    Emitter.emit p ev
        = ({ p with handle := ⟨max 1 k, prob⟩, pending := rest },
           .error (.libyaml (getEmitterError ⟨max 1 k, prob⟩)))
    ∧ Emitter.flush p
        = ({ p with handle := ⟨max 1 k, prob⟩, pending := rest },
           .error (.libyaml (getEmitterError ⟨max 1 k, prob⟩))) := by
  obtain ⟨hdl, w, io, pend⟩ := p
  simp only at hp hio
  subst hp
  subst hio
  constructor <;> simp [Emitter.emit, Emitter.flush, yamlEmitterStep]

/-- C3: when the engine step of `Emitter::emit` or `Emitter::flush`
fails, the call returns the stored sink I/O error (`Io` kind) if the
write callback had recorded one — either on an earlier call or during
this very step — and otherwise the engine's snapshotted error
(`Libyaml` kind). -/
theorem emit_flush_io_precedence (p : EmitterPinned) (ev : EEvent) :
    (∀ k prob rest e, p.pending = .failEngine k prob :: rest →
        p.ioError = some e →
        Emitter.emit p ev
            = ({ p with handle := ⟨max 1 k, prob⟩, pending := rest, ioError := none },
               .error (.io e))
          ∧ Emitter.flush p
            = ({ p with handle := ⟨max 1 k, prob⟩, pending := rest, ioError := none },
               .error (.io e)))
    ∧ (∀ io k prob rest, p.pending = .writeFail io k prob :: rest →
        p.writer = true →
        Emitter.emit p ev
            = ({ p with handle := ⟨max 1 k, prob⟩, pending := rest, ioError := none },
               .error (.io io))
          ∧ Emitter.flush p
            = ({ p with handle := ⟨max 1 k, prob⟩, pending := rest, ioError := none },
               .error (.io io)))
    ∧ (∀ k prob rest, p.pending = .failEngine k prob :: rest →
        p.ioError = none →
        Emitter.emit p ev
            = ({ p with handle := ⟨max 1 k, prob⟩, pending := rest },
               .error (.libyaml (getEmitterError ⟨max 1 k, prob⟩)))
          ∧ Emitter.flush p
            = ({ p with handle := ⟨max 1 k, prob⟩, pending := rest },
               .error (.libyaml (getEmitterError ⟨max 1 k, prob⟩)))) := by
  refine ⟨?_, ?_, ?_⟩
  · intro k prob rest e hp hio
    obtain ⟨hdl, w, io, pend⟩ := p
    simp only at hp hio
    subst hp
    subst hio
    constructor <;> simp [Emitter.emit, Emitter.flush, yamlEmitterStep]
  · intro io k prob rest hp hw
    obtain ⟨hdl, w, io0, pend⟩ := p
    simp only at hp hw
    subst hp
    subst hw
    constructor <;> simp [Emitter.emit, Emitter.flush, yamlEmitterStep, handler]
  · intro k prob rest hp hio
    exact emit_fail_engine_no_io p ev k prob rest hp hio

/-- Witness for C3: an emitter with a stashed sink error 7 whose engine
step fails reports `Io 7`; one whose sink fails with 9 during the step
reports `Io 9`; one with no sink failure reports the `Libyaml`
snapshot. -/
theorem emit_flush_io_precedence_witness :
    Emitter.emit ⟨⟨0, none⟩, true, some 7, [.failEngine 3 (some "engine")]⟩ .streamEnd
        = (⟨⟨3, some "engine"⟩, true, none, []⟩, .error (.io 7))
      ∧ Emitter.emit ⟨⟨0, none⟩, true, none, [.writeFail 9 4 (some "w")]⟩ .streamEnd
          = (⟨⟨4, some "w"⟩, true, none, []⟩, .error (.io 9))
      ∧ Emitter.flush ⟨⟨0, none⟩, true, none, [.failEngine 3 (some "engine")]⟩
          = (⟨⟨3, some "engine"⟩, true, none, []⟩,
             .error (.libyaml (getEmitterError ⟨3, some "engine"⟩))) :=
  ⟨(((emit_flush_io_precedence ⟨⟨0, none⟩, true, some 7, [.failEngine 3 (some "engine")]⟩
        .streamEnd).1 3 (some "engine") [] 7 rfl rfl).1).trans (by decide),
   (((emit_flush_io_precedence ⟨⟨0, none⟩, true, none, [.writeFail 9 4 (some "w")]⟩
        .streamEnd).2.1 9 4 (some "w") [] rfl rfl).1).trans (by decide),
   (((emit_flush_io_precedence ⟨⟨0, none⟩, true, none, [.failEngine 3 (some "engine")]⟩
        .streamEnd).2.2 3 (some "engine") [] rfl rfl).2).trans (by decide)⟩

/-- C10: a stored sink I/O error is consumed when reported as `Io` from
`emit` or `flush`; afterwards the stash is empty, and a later failing
call with no new write failure returns the `Libyaml` engine error. -/
theorem io_error_consumed_once (p p2 : EmitterPinned) (ev : EEvent) (e : Nat)
    (hfail : Emitter.emit p ev = (p2, .error (.io e))
        ∨ Emitter.flush p = (p2, .error (.io e))) :
    p2.ioError = none
    ∧ ∀ k prob rest ev2, p2.pending = .failEngine k prob :: rest →
        Emitter.emit p2 ev2
            = ({ p2 with handle := ⟨max 1 k, prob⟩, pending := rest },
               .error (.libyaml (getEmitterError ⟨max 1 k, prob⟩)))
          ∧ Emitter.flush p2
            = ({ p2 with handle := ⟨max 1 k, prob⟩, pending := rest },
               .error (.libyaml (getEmitterError ⟨max 1 k, prob⟩))) := by
  have core : ∀ q : EmitterPinned,
      ((match q.ioError with
        | some x => ({ q with ioError := none }, Except.error (EmitterError.io x))
        | none => (q, Except.error (EmitterError.libyaml (getEmitterError q.handle))))
        : EmitterPinned × Except EmitterError Unit)
        = (p2, Except.error (EmitterError.io e)) →
      p2.ioError = none := by
    intro q hm
    rcases hq : q.ioError with _ | x <;> rw [hq] at hm
    · simp at hm
    · simp at hm
      rw [← hm.1]
  have hnone : p2.ioError = none := by
    rcases hfail with hfail | hfail <;>
    · have hfail2 :
          ((match yamlEmitterStep p with
            | (p3, false) => (p3, Except.ok ())
            | (p3, true) =>
              match p3.ioError with
              | some x => ({ p3 with ioError := none }, Except.error (EmitterError.io x))
              | none =>
                (p3, Except.error (EmitterError.libyaml (getEmitterError p3.handle))))
            : EmitterPinned × Except EmitterError Unit)
            = (p2, Except.error (EmitterError.io e)) := hfail
      rcases hstep : yamlEmitterStep p with ⟨q, b⟩
      rw [hstep] at hfail2
      cases b
      · have : (q, Except.ok ()) = (p2, Except.error (EmitterError.io e)) := hfail2
        simp at this
      · exact core q hfail2
  refine ⟨hnone, ?_⟩
  intro k prob rest ev2 hp
  exact emit_fail_engine_no_io p2 ev2 k prob rest hp hnone

/-- Witness for C10: after the `Io 7` report, the stash is empty and the
next failing call reports the `Libyaml` snapshot. -/
theorem io_error_consumed_once_witness :
    (⟨⟨3, some "engine"⟩, true, none, [.failEngine 5 (some "later")]⟩
        : EmitterPinned).ioError = none
      ∧ Emitter.flush ⟨⟨3, some "engine"⟩, true, none, [.failEngine 5 (some "later")]⟩
          = (⟨⟨5, some "later"⟩, true, none, []⟩,
             .error (.libyaml (getEmitterError ⟨5, some "later"⟩))) :=
  have h := io_error_consumed_once
    ⟨⟨0, none⟩, true, some 7, [.failEngine 3 (some "engine"), .failEngine 5 (some "later")]⟩
    ⟨⟨3, some "engine"⟩, true, none, [.failEngine 5 (some "later")]⟩
    .streamEnd 7 (.inl (by decide))
  ⟨h.1, ((h.2 5 (some "later") [] .streamEnd rfl).2).trans (by decide)⟩

/-- Shared helper: NUL-terminating a NUL-free byte list and reading it
back as a C string is the identity. -/
theorem cString_append_zero (l : List Nat) (h : ∀ x ∈ l, x ≠ 0) :
    cString (l ++ [0]) = l := by
  induction l with
  | nil => rfl
  | cons a as ih =>
    have ha : (a != 0) = true := by
      simp [bne_iff_ne]
      exact h a (List.mem_cons_self a as)
    simp only [cString, List.cons_append, List.takeWhile_cons, ha, if_true]
    exact congrArg (a :: ·) (ih fun x hx => h x (List.mem_cons_of_mem a hx))

/-- Shared helper: one anchor-free decoded event survives the
re-encode/re-decode round trip up to `repr` erasure. -/
theorem round_trip_event (input : Cow) (s : SysEvent) (p : Event) (e : EEvent)
    (hwf : s.data.cstringsWF = true)
    (hd : convert_event s input = some p)
    (ha : p.anchorFree = true)
    (ht : toEmitterEvent p = some e) :
    convert_event ⟨emitterEventToSys e, Mark.zero, Mark.zero⟩ (.owned [])
      = some p.eraseRepr := by
  obtain ⟨d, m1, m2⟩ := s
  rcases d with _ | _ | imp | imp | a | ⟨a, t, v, pi, qi, st⟩ | ⟨a, t, imp⟩ | _ | ⟨a, t, imp⟩ | _ <;>
    simp [convert_event] at hd
  · subst hd
    simp [toEmitterEvent] at ht
    subst ht
    rfl
  · subst hd
    simp [toEmitterEvent] at ht
    subst ht
    rfl
  · subst hd
    simp [toEmitterEvent] at ht
    subst ht
    rfl
  · subst hd
    simp [toEmitterEvent] at ht
    subst ht
    rfl
  · -- alias: untranslatable
    rcases hd with ⟨x, hx, hp⟩
    subst hp
    simp [toEmitterEvent] at ht
  · -- scalar
    rcases v with _ | vv
    · simp at hd
    · rcases hst : sysStyleToStyle st with _ | pst <;> rw [hst] at hd
      · simp at hd
      · simp at hd
        subst hd
        simp [Event.anchorFree] at ha
        subst ha
        simp only [toEmitterEvent] at ht
        rcases hes : toEmitterStyle pst with _ | est <;> rw [hes] at ht
        · simp at ht
        · simp at ht
          subst ht
          rcases t with _ | tv
          · rcases pst <;> simp [toEmitterStyle] at hes <;> subst hes <;>
              simp [emitterEventToSys, convert_event, sysStyleToStyle,
                Event.eraseRepr, reprSlice]
          · simp [SysEventData.cstringsWF] at hwf
            rcases pst <;> simp [toEmitterStyle] at hes <;> subst hes <;>
              simp [emitterEventToSys, convert_event, sysStyleToStyle,
                Event.eraseRepr, reprSlice, cString_append_zero tv hwf]
  · -- sequence start
    subst hd
    simp [Event.anchorFree] at ha
    subst ha
    simp only [toEmitterEvent] at ht
    simp at ht
    subst ht
    rcases t with _ | tv
    · simp [emitterEventToSys, convert_event, Event.eraseRepr]
    · simp [SysEventData.cstringsWF] at hwf
      simp [emitterEventToSys, convert_event, Event.eraseRepr,
        cString_append_zero tv hwf]
  · subst hd
    simp [toEmitterEvent] at ht
    subst ht
    rfl
  · -- mapping start
    subst hd
    simp [Event.anchorFree] at ha
    subst ha
    simp only [toEmitterEvent] at ht
    simp at ht
    subst ht
    rcases t with _ | tv
    · simp [emitterEventToSys, convert_event, Event.eraseRepr]
    · simp [SysEventData.cstringsWF] at hwf
      simp [emitterEventToSys, convert_event, Event.eraseRepr,
        cString_append_zero tv hwf]
  · subst hd
    simp [toEmitterEvent] at ht
    subst ht
    rfl

/-- C1 (counterexample): a decodable event sequence — a single plain
scalar carrying an anchor — does not round trip: the encoder's event
vocabulary has no anchor field, so the re-decoded scalar has
`anchor = none` while the original had `anchor = some [97]`. -/
theorem round_trip_counterexample : ¬ roundTripClaim := by
  intro hclaim
  have := hclaim (.owned [])
    [⟨.scalar (some [97]) none (some [98]) true true .plain, Mark.zero, Mark.zero⟩]
    [.scalar ⟨some [97], none, [98], .plain, none⟩]
    [.scalar ⟨none, [98], .plain⟩]
    (by decide) (by decide)
  exact absurd this (by decide)

/-- C1 (amended): for every event sequence produced by decoding a
well-formed document in which no event carries an anchor and no event
is an alias, re-encoding through `Emitter::emit`'s vocabulary and
re-decoding the engine's bytes yields the same sequence, where equality
ignores Marks and the zero-copy `repr` field.  (Anchors cannot be
claimed: the encoder's events have no anchor fields and no Alias
variant, so re-encoding drops them.) -/
theorem round_trip_anchor_free (input : Cow) :
    ∀ (ss : List SysEvent) (ps : List Event) (es : List EEvent),
      (∀ s ∈ ss, s.data.cstringsWF = true) →
      decodeSeq input ss = some ps →
      (∀ p ∈ ps, p.anchorFree = true) →
      translateSeq ps = some es →
      decodeSeq (.owned []) (modelEmitParse (es.map emitterEventToSys))
        = some (ps.map Event.eraseRepr) := by
  intro ss
  induction ss with
  | nil =>
    intro ps es hwf hd ha ht
    simp [decodeSeq] at hd
    subst hd
    simp [translateSeq] at ht
    subst ht
    simp [modelEmitParse, decodeSeq]
  | cons s ss ih =>
    intro ps es hwf hd ha ht
    rcases hc : convert_event s input with _ | p0 <;>
      rw [decodeSeq, hc] at hd
    · simp at hd
    · rcases hrest : decodeSeq input ss with _ | ps0 <;> rw [hrest] at hd
      · simp at hd
      · simp at hd
        subst hd
        rcases he : toEmitterEvent p0 with _ | e0 <;>
          rw [translateSeq, he] at ht
        · simp at ht
        · rcases hts : translateSeq ps0 with _ | es0 <;> rw [hts] at ht
          · simp at ht
          · simp at ht
            subst ht
            have hhead := round_trip_event input s p0 e0
              (hwf s (List.mem_cons_self s ss)) hc
              (ha p0 (List.mem_cons_self p0 ps0)) he
            have htail := ih ps0 es0
              (fun x hx => hwf x (List.mem_cons_of_mem s hx)) hrest
              (fun x hx => ha x (List.mem_cons_of_mem p0 hx)) hts
            simp only [modelEmitParse, List.map_cons] at htail ⊢
            rw [decodeSeq, hhead, htail]

/-- Witness for amended C1: a tagged, anchor-free plain scalar decoded
from a borrowed input round trips, with its `repr` erased. -/
theorem round_trip_anchor_free_witness :
    decodeSeq (.owned [])
        (modelEmitParse ([EEvent.scalar ⟨some [33], [104], .plain⟩].map emitterEventToSys))
      = some ([Event.scalar ⟨none, some [33], [104], .plain, some []⟩].map Event.eraseRepr) :=
  round_trip_anchor_free (.borrowed [104])
    [⟨.scalar none (some [33]) (some [104]) false false .plain, Mark.zero, Mark.zero⟩]
    [.scalar ⟨none, some [33], [104], .plain, some []⟩]
    [.scalar ⟨some [33], [104], .plain⟩]
    (by decide) (by decide) (by decide) (by decide)

end SerdeYaml
